import Mathlib

/-!
Shallow embedding of the error-introspection core of the `raygun` crash
reporting package (files `util.go` and the main package file): the cause
resolver, the class/data probes, the three-strategy stack trace extractor
and `FromErr`.

Go conventions modelled explicitly:
* A Go `error` interface value is `Option GoErr` at call sites that may
  receive `nil`; `GoErr.ray` is a value of the package's own `Error`
  struct, `GoErr.ext` is any other error value with its optional
  duck-typed capabilities (`Cause`, `Class`, `data`, the two
  `StackTrace` shapes).
* A Go runtime panic (out-of-range index or slice) is `Option.none` in
  the result of the function that would panic.
* A `pkg/errors` frame (`pkgerr.Frame`) is consumed by the source only
  through three `fmt` renderings (`%d`, `%+s`, `%n`); it is embedded as
  the record of those three rendered strings.
* Strategy C's raw capture (`runtime.Stack` + `stack2struct.Parse`) is
  ambient execution state parsed by an external package; it is passed to
  the embedded `stacktrace`/`FromErr` as an explicit `raw` argument
  holding the parsed frame sequence.
-/

namespace raygun

/-- A Go `interface` (empty interface) value, as returned by the duck-typed
`data()` capability; `vnil` is Go's `nil`. -/
inductive GoVal where
  | vnil : GoVal
  | vstr : String → GoVal
  | vint : Int → GoVal
deriving DecidableEq, Repr

/-- `StackTraceElement` is one element of the error's stack trace. -/
structure StackTraceElement where
  LineNumber : Int
  PackageName : String
  FileName : String
  MethodName : String
deriving DecidableEq, Repr

/-- `StackTrace` is a slice of `StackTraceElement`. -/
abbrev StackTrace := List StackTraceElement

/-- The package's `Error` struct (`innerError`, `data`, `className`,
`message`, `stackTrace`). -/
structure Error where
  InnerError : String
  Data : GoVal
  ClassName : String
  Message : String
  StackTrace : List StackTraceElement
deriving DecidableEq, Repr

/-- The method `func (e Error) Error() string`: returns `e.Message`. -/
def Error.Error (e : Error) : String := e.Message

/-- A `pkg/errors` frame as the source consumes it: the three `fmt`
renderings `%d` (decimal line), `%+s` (qualified function name, newline,
tab, file path) and `%n` (bare function name). -/
structure PkgFrame where
  dRender : String
  sRender : String
  nRender : String
deriving DecidableEq, Repr

/-- A non-nil Go `error` value: either the package's own `Error` struct or
an external error with its message and optional capabilities. For `ext`,
`causeAcc = some x` means the value implements `Cause() error` and the
accessor returns `x` (inner `none` is a nil result); `classAcc`,
`dataAcc`, `stAcc1` (`StackTrace() pkgerr.StackTrace`) and `stAcc2`
(`StackTrace() []string`) model the other capabilities the same way. -/
inductive GoErr where
  | ray : Error → GoErr
  | ext : (msg : String) → (causeAcc : Option (Option GoErr)) →
      (classAcc : Option String) → (dataAcc : Option GoVal) →
      (stAcc1 : Option (List PkgFrame)) → (stAcc2 : Option (List String)) → GoErr

/-- The `causer` capability probe: the result of `err.(causer)` plus the
accessor. -/
def causeAccOf : GoErr → Option (Option GoErr)
  | .ray _ => none
  | .ext _ c _ _ _ _ => c

/-- The `classer` capability probe. -/
def classAccOf : GoErr → Option String
  | .ray _ => none
  | .ext _ _ c _ _ _ => c

/-- The `dataer` capability probe. -/
def dataAccOf : GoErr → Option GoVal
  | .ray _ => none
  | .ext _ _ _ d _ _ => d

/-- The `stackTracer1` capability probe (`StackTrace() pkgerr.StackTrace`). -/
def stAcc1Of : GoErr → Option (List PkgFrame)
  | .ray _ => none
  | .ext _ _ _ _ s _ => s

/-- The `stackTracer2` capability probe (`StackTrace() []string`). -/
def stAcc2Of : GoErr → Option (List String)
  | .ray _ => none
  | .ext _ _ _ _ _ s => s

/-- `err.Error()` for a non-nil error value; for the package's own struct
this is the method `Error.Error`. -/
def errMsg : GoErr → String
  | .ray e => e.Error
  | .ext m _ _ _ _ _ => m

/-- The loop body of `cause` on a non-nil error: while the value implements
`Cause() error` and the accessor's result is non-nil, replace the value
with that result. -/
def causeE : GoErr → GoErr
  | .ext _ (some (some c)) _ _ _ _ => causeE c
  | e => e

/-- `func cause(err error) error` from `util.go`: nil is returned without
probing; otherwise the unwrap loop runs. -/
def cause : Option GoErr → Option GoErr
  | none => none
  | some e => some (causeE e)

/-- Number of unwrap steps the `cause` loop performs: the length of the
chain of present, non-nil `Cause()` results. -/
def chainDepth : GoErr → Nat
  | .ext _ (some (some c)) _ _ _ _ => chainDepth c + 1
  | _ => 0

/-- At most `n` iterations of the `cause` loop body. -/
def causeIter : Nat → GoErr → GoErr
  | 0, e => e
  | n + 1, .ext _ (some (some c)) _ _ _ _ => causeIter n c
  | _ + 1, e => e

/-- `func class(err error) string` (Lean forbids the identifier `class`):
the `Class()` value when the capability is present, else `""`. -/
def class' (err : GoErr) : String :=
  match classAccOf err with
  | some s => s
  | none => ""

/-- `func data(err error) interface\x7b\x7d`: the `data()` value when the
capability is present, else nil. -/
def data (err : GoErr) : GoVal :=
  match dataAccOf err with
  | some v => v
  | none => .vnil

/-- `strings.Split` around a one-character separator: splits at every
occurrence, never returns an empty list. -/
def split1 (sep : Char) : List Char → List (List Char)
  | [] => [[]]
  | c :: cs =>
      if c = sep then [] :: split1 sep cs
      else
        match split1 sep cs with
        | [] => [[c]]
        | r :: rs => (c :: r) :: rs

/-- `strings.Split` around a two-character separator: splits at every
non-overlapping occurrence scanning left to right. -/
def split2 (a b : Char) : List Char → List (List Char)
  | [] => [[]]
  | [c] => [[c]]
  | c :: d :: cs =>
      if c = a ∧ d = b then [] :: split2 a b cs
      else
        match split2 a b (d :: cs) with
        | [] => [[c]]
        | r :: rs => (c :: r) :: rs

/-- `strings.Split(s, sep)` for a one-character `sep`. -/
def goSplit1 (sep : Char) (s : String) : List String :=
  (split1 sep s.data).map String.mk

/-- `strings.Split(s, sep)` for a two-character `sep`. -/
def goSplit2 (a b : Char) (s : String) : List String :=
  (split2 a b s.data).map String.mk

/-- `strconv.Atoi`: optional sign followed by one or more decimal digits,
within the 64-bit `int` range; `none` is the error case. -/
def goAtoi (s : String) : Option Int :=
  let digits : List Char → Option Nat := fun cs =>
    match cs with
    | [] => none
    | _ => cs.foldlM (fun acc c =>
        if c.isDigit then some (acc * 10 + (c.toNat - 48)) else none) 0
  match s.data with
  | '+' :: rest => (digits rest).bind fun n =>
      if n ≤ 9223372036854775807 then some (Int.ofNat n) else none
  | '-' :: rest => (digits rest).bind fun n =>
      if n ≤ 9223372036854775808 then some (-(Int.ofNat n)) else none
  | cs => (digits cs).bind fun n =>
      if n ≤ 9223372036854775807 then some (Int.ofNat n) else none

/-- One iteration of the Strategy A loop in `stacktrace`: `Atoi` of the
`%d` rendering with `-1` on failure; split the `%+s` rendering on
newline+tab; the package is all but the last dot-segment of the prefix
rejoined; the file is the second piece (a Go panic, `none`, if there is
no second piece); the method is the `%n` rendering. -/
def parseAFrame (f : PkgFrame) : Option StackTraceElement :=
  let n : Int := (goAtoi f.dRender).getD (-1)
  match goSplit2 '\n' '\t' f.sRender with
  | p0 :: p1 :: _ =>
      some { LineNumber := n,
             PackageName := String.intercalate "." (goSplit1 '.' p0).dropLast,
             FileName := p1,
             MethodName := f.nRender }
  | _ => none

/-- The Strategy A loop over the `pkgerr.StackTrace` sequence: one entry
appended per frame in order; a panic in any iteration aborts the call. -/
def parseA : List PkgFrame → Option StackTrace
  | [] => some []
  | f :: fs =>
      match parseAFrame f, parseA fs with
      | some fr, some rest => some (fr :: rest)
      | _, _ => none

/-- One iteration of the Strategy B loop: split the line on `":"`; `Atoi`
of the second piece with `-1` on failure (a Go panic, `none`, if there is
no second piece); the first piece is the file; package and method stay
empty. -/
def parseBLine (line : String) : Option StackTraceElement :=
  match goSplit1 ':' line with
  | p0 :: p1 :: _ =>
      some { LineNumber := (goAtoi p1).getD (-1),
             PackageName := "",
             FileName := p0,
             MethodName := "" }
  | _ => none

/-- The Strategy B loop over the `[]string` sequence. -/
def parseB : List String → Option StackTrace
  | [] => some []
  | l :: ls =>
      match parseBLine l, parseB ls with
      | some fr, some rest => some (fr :: rest)
      | _, _ => none

/-- `func stacktrace(err error) StackTrace`: Strategy A if the
`stackTracer1` capability is present, else Strategy B if `stackTracer2`
is, else the raw capture fallback returning `stack[2:]` of the parsed raw
frames (`raw`), which in Go panics when fewer than two frames were
parsed. -/
def stacktrace (raw : StackTrace) (err : GoErr) : Option StackTrace :=
  match stAcc1Of err with
  | some s => parseA s
  | none =>
      match stAcc2Of err with
      | some s => parseB s
      | none => if 2 ≤ raw.length then some (raw.drop 2) else none

/-- The struct literal built by `FromErr` for a not-already-normalized
error. The source's `InnerError: cause(err).Error()` line is commented
out ("Disabled because it causes strange things"), so `InnerError` stays
the zero value `""`. -/
def buildErr (raw : StackTrace) (err : GoErr) : Option Error :=
  match stacktrace raw err with
  | none => none
  | some st =>
      some { InnerError := "",
             Data := data err,
             ClassName := class' err,
             Message := errMsg err,
             StackTrace := st }

/-- `func FromErr(err error) Error`: a value that is already the package's
`Error` struct is returned unchanged; otherwise the struct literal is
built. -/
def FromErr (raw : StackTrace) (err : GoErr) : Option Error :=
  match err with
  | .ray e => some e
  | .ext .. => buildErr raw err

/-- The stack capability sequences an error exposes are separable: every
Strategy A file rendering contains the newline+tab separator and every
Strategy B line contains a colon (and, with neither capability, the raw
capture has the two droppable frames). On this domain the Go code indexes
no slice out of range. -/
def wellFormedSt (raw : StackTrace) (err : GoErr) : Prop :=
  match stAcc1Of err with
  | some fs => ∀ f ∈ fs, 2 ≤ (goSplit2 '\n' '\t' f.sRender).length
  | none =>
      match stAcc2Of err with
      | some ls => ∀ s ∈ ls, 2 ≤ (goSplit1 ':' s).length
      | none => 2 ≤ raw.length

/-- Field computation of one Strategy A iteration, given the split of the
`%+s` rendering. -/
theorem parseAFrame_eq (f : PkgFrame) (p0 p1 : String) (rest : List String)
    (h : goSplit2 '\n' '\t' f.sRender = p0 :: p1 :: rest) :
    parseAFrame f =
      some { LineNumber := (goAtoi f.dRender).getD (-1),
             PackageName := String.intercalate "." (goSplit1 '.' p0).dropLast,
             FileName := p1, MethodName := f.nRender } := by
  unfold parseAFrame
  rw [h]

/-- Field computation of one Strategy B iteration, given the split of the
line on colons. -/
theorem parseBLine_eq (s p0 p1 : String) (rest : List String)
    (h : goSplit1 ':' s = p0 :: p1 :: rest) :
    parseBLine s =
      some { LineNumber := (goAtoi p1).getD (-1),
             PackageName := "", FileName := p0, MethodName := "" } := by
  unfold parseBLine
  rw [h]

/-- Strategy A succeeds on a sequence of separable renderings. -/
theorem parseA_isSome : ∀ fs : List PkgFrame,
    (∀ f ∈ fs, 2 ≤ (goSplit2 '\n' '\t' f.sRender).length) →
    (parseA fs).isSome := by
  intro fs
  induction fs with
  | nil => intro _; rfl
  | cons f fs ih =>
      intro h
      have hf : 2 ≤ (goSplit2 '\n' '\t' f.sRender).length := h f (by simp)
      have hfs := ih (fun g hg => h g (by simp [hg]))
      cases hsp : goSplit2 '\n' '\t' f.sRender with
      | nil => rw [hsp] at hf; exact absurd hf (by simp)
      | cons p0 tl =>
          cases tl with
          | nil => rw [hsp] at hf; exact absurd hf (by simp)
          | cons p1 rest =>
              rw [show parseA (f :: fs) =
                    (match parseAFrame f, parseA fs with
                     | some fr, some r => some (fr :: r)
                     | _, _ => none) from rfl,
                  parseAFrame_eq f p0 p1 rest hsp]
              cases hr : parseA fs with
              | none => rw [hr] at hfs; exact Bool.noConfusion hfs
              | some r => rfl

/-- Strategy B succeeds on a sequence of colon-separated lines. -/
theorem parseB_isSome : ∀ ls : List String,
    (∀ s ∈ ls, 2 ≤ (goSplit1 ':' s).length) → (parseB ls).isSome := by
  intro ls
  induction ls with
  | nil => intro _; rfl
  | cons l ls ih =>
      intro h
      have hl : 2 ≤ (goSplit1 ':' l).length := h l (by simp)
      have hls := ih (fun s hs => h s (by simp [hs]))
      cases hsp : goSplit1 ':' l with
      | nil => rw [hsp] at hl; exact absurd hl (by simp)
      | cons p0 tl =>
          cases tl with
          | nil => rw [hsp] at hl; exact absurd hl (by simp)
          | cons p1 rest =>
              rw [show parseB (l :: ls) =
                    (match parseBLine l, parseB ls with
                     | some fr, some r => some (fr :: r)
                     | _, _ => none) from rfl,
                  parseBLine_eq l p0 p1 rest hsp]
              cases hr : parseB ls with
              | none => rw [hr] at hls; exact Bool.noConfusion hls
              | some r => rfl

/-- The extractor succeeds on every well-formed input. -/
theorem stacktrace_isSome (raw : StackTrace) (err : GoErr)
    (hw : wellFormedSt raw err) : (stacktrace raw err).isSome := by
  cases err with
  | ray e =>
      have h2 : 2 ≤ raw.length := hw
      simp [stacktrace, stAcc1Of, stAcc2Of, h2]
  | ext m ca cl d s1 s2 =>
      cases s1 with
      | some fs =>
          have hfs : ∀ f ∈ fs, 2 ≤ (goSplit2 '\n' '\t' f.sRender).length := hw
          simpa [stacktrace, stAcc1Of] using parseA_isSome fs hfs
      | none =>
          cases s2 with
          | some ls =>
              have hls : ∀ s ∈ ls, 2 ≤ (goSplit1 ':' s).length := hw
              simpa [stacktrace, stAcc1Of, stAcc2Of] using parseB_isSome ls hls
          | none =>
              have h2 : 2 ≤ raw.length := hw
              simp [stacktrace, stAcc1Of, stAcc2Of, h2]

/-- C4 counterexample: a string-line capability whose line has no colon
makes the Strategy B loop index `parts[1]` out of range — a Go runtime
panic (`none`), so extraction does not "never fail for any input". -/
theorem stacktrace_panic_colonless :
    stacktrace [] (.ext "boom" none none none none (some ["nocolon"])) =
      none := rfl

/-- C4 amended: on separable inputs (`wellFormedSt`) introspection and
extraction always produce a result, and a non-numeric line field degrades
to `-1` inside a kept frame in both strategies. -/
theorem extraction_total_on_separable :
    (∀ s p0 p1 rest, goSplit1 ':' s = p0 :: p1 :: rest → goAtoi p1 = none →
        parseBLine s =
          some { LineNumber := -1, PackageName := "",
                 FileName := p0, MethodName := "" }) ∧
    (∀ f p0 p1 rest, goSplit2 '\n' '\t' f.sRender = p0 :: p1 :: rest →
        goAtoi f.dRender = none →
        parseAFrame f =
          some { LineNumber := -1,
                 PackageName := String.intercalate "." (goSplit1 '.' p0).dropLast,
                 FileName := p1, MethodName := f.nRender }) ∧
    (∀ raw err, wellFormedSt raw err → (FromErr raw err).isSome) := by
  refine ⟨?_, ?_, ?_⟩
  · intro s p0 p1 rest h hA
    rw [parseBLine_eq s p0 p1 rest h, hA]
    rfl
  · intro f p0 p1 rest h hA
    rw [parseAFrame_eq f p0 p1 rest h, hA]
    rfl
  · intro raw err hw
    cases err with
    | ray e => simp [FromErr]
    | ext m ca cl d s1 s2 =>
        have hs := stacktrace_isSome raw _ hw
        cases hst : stacktrace raw (.ext m ca cl d s1 s2) with
        | none => rw [hst] at hs; exact Bool.noConfusion hs
        | some st => simp [FromErr, buildErr, hst]

/-- Witness for C4 (amended) at a concrete colon-separated string-line
error with a non-numeric line field. -/
theorem extraction_total_on_separable_witness :
    (FromErr [] (.ext "m" none none none none (some ["f.go:xx"]))).isSome :=
  extraction_total_on_separable.2.2 []
    (.ext "m" none none none none (some ["f.go:xx"]))
    (by intro s hs; simp at hs; rw [hs]; decide)

/-- C5: at the repository's own `TestFromErr` scenario — a root error with
message `"new error"` wrapped by the `pkg/errors` convention with prefix
`"wrapped err: "` — `FromErr` yields `Message = "wrapped err: new error"`
but `InnerError = ""`: the `InnerError: cause(err).Error()` line is
commented out in the source, even though the resolved cause's message is
`"new error"` exactly as the test (and the claim) expect. -/
theorem FromErr_wrapped_inner_empty :
    FromErr []
      (.ext "wrapped err: new error"
        (some (some (.ext "new error" none none none none none)))
        none none (some []) none) =
      some { InnerError := "", Data := .vnil, ClassName := "",
             Message := "wrapped err: new error", StackTrace := [] } ∧
    errMsg (causeE (.ext "wrapped err: new error"
        (some (some (.ext "new error" none none none none none)))
        none none (some []) none)) = "new error" :=
  ⟨rfl, rfl⟩

/-- C6: each Strategy A descriptor maps to exactly the frame whose fields
are computed from its three renderings, and the produced trace has one
frame per descriptor in source order. -/
theorem parseA_frame_fields :
    (∀ f p0 p1 rest, goSplit2 '\n' '\t' f.sRender = p0 :: p1 :: rest →
        parseAFrame f =
          some { LineNumber := (goAtoi f.dRender).getD (-1),
                 PackageName :=
                   String.intercalate "." (goSplit1 '.' p0).dropLast,
                 FileName := p1, MethodName := f.nRender }) ∧
    (∀ fs l, parseA fs = some l → l.length = fs.length ∧
        ∀ i (hi : i < fs.length) (hl : i < l.length),
          parseAFrame (fs.get ⟨i, hi⟩) = some (l.get ⟨i, hl⟩)) := by
  refine ⟨parseAFrame_eq, ?_⟩
  intro fs
  induction fs with
  | nil =>
      intro l h
      have h' : some ([] : StackTrace) = some l := h
      cases h'
      exact ⟨rfl, fun i hi _ => absurd hi (Nat.not_lt_zero i)⟩
  | cons f fs ih =>
      intro l h
      cases hf : parseAFrame f with
      | none =>
          rw [show parseA (f :: fs) =
                (match parseAFrame f, parseA fs with
                 | some fr, some r => some (fr :: r)
                 | _, _ => none) from rfl, hf] at h
          cases hr : parseA fs with
          | none => rw [hr] at h; cases h
          | some r => rw [hr] at h; cases h
      | some fr =>
          rw [show parseA (f :: fs) =
                (match parseAFrame f, parseA fs with
                 | some fr, some r => some (fr :: r)
                 | _, _ => none) from rfl, hf] at h
          cases hr : parseA fs with
          | none => rw [hr] at h; cases h
          | some r =>
              rw [hr] at h
              have h' : fr :: r = l := Option.some.inj h
              cases h'
              obtain ⟨hlen, hidx⟩ := ih r hr
              refine ⟨by simp [hlen], ?_⟩
              intro i hi hl
              cases i with
              | zero => exact hf
              | succ i =>
                  exact hidx i (by simpa using hi) (by simpa using hl)

/-- Witness for C6 at a concrete descriptor. -/
theorem parseA_frame_fields_witness :
    parseAFrame { dRender := "12", sRender := "pkg.sub.Func\n\tfile.go",
                  nRender := "Func" } =
      some { LineNumber := 12, PackageName := "pkg.sub",
             FileName := "file.go", MethodName := "Func" } :=
  parseA_frame_fields.1
    { dRender := "12", sRender := "pkg.sub.Func\n\tfile.go", nRender := "Func" }
    "pkg.sub.Func" "file.go" [] rfl

/-- C7: with neither stack capability present and a raw capture of at
least two parsed frames, the extractor returns the capture with exactly
its first two frames removed. -/
theorem stacktrace_fallback_drop2 :
    ∀ raw msg ca cl d, 2 ≤ raw.length →
      stacktrace raw (.ext msg ca cl d none none) = some (raw.drop 2) := by
  intro raw msg ca cl d h
  simp [stacktrace, stAcc1Of, stAcc2Of, h]

/-- Witness for C7 at a concrete three-frame raw capture. -/
theorem stacktrace_fallback_drop2_witness :
    stacktrace [⟨1, "", "a", ""⟩, ⟨2, "", "b", ""⟩, ⟨3, "", "c", ""⟩]
      (.ext "m" none none none none none) = some [⟨3, "", "c", ""⟩] :=
  stacktrace_fallback_drop2
    [⟨1, "", "a", ""⟩, ⟨2, "", "b", ""⟩, ⟨3, "", "c", ""⟩]
    "m" none none none (by decide)

/-- The `cause` loop body is the identity when no unwrap step applies. -/
theorem causeE_noStep (e : GoErr) (h : ∀ c, causeAccOf e ≠ some (some c)) :
    causeE e = e := by
  cases e with
  | ray a => rfl
  | ext m ca cl d s1 s2 =>
      cases ca with
      | none => rfl
      | some co =>
          cases co with
          | none => rfl
          | some c => exact absurd rfl (h c)

/-- The `cause` loop body computes exactly `chainDepth` iterations. -/
theorem causeE_eq_iter : ∀ n e, chainDepth e = n → causeE e = causeIter n e := by
  intro n
  induction n with
  | zero =>
      intro e h
      cases e with
      | ray a => rfl
      | ext m ca cl d s1 s2 =>
          cases ca with
          | none => rfl
          | some co =>
              cases co with
              | none => rfl
              | some c =>
                  have h0 : chainDepth c + 1 = 0 := h
                  exact (Nat.succ_ne_zero _ h0).elim
  | succ n ih =>
      intro e h
      cases e with
      | ray a =>
          have h0 : (0 : Nat) = n + 1 := h
          exact (Nat.succ_ne_zero n h0.symm).elim
      | ext m ca cl d s1 s2 =>
          cases ca with
          | none =>
              have h0 : (0 : Nat) = n + 1 := h
              exact (Nat.succ_ne_zero n h0.symm).elim
          | some co =>
              cases co with
              | none =>
                  have h0 : (0 : Nat) = n + 1 := h
                  exact (Nat.succ_ne_zero n h0.symm).elim
              | some c =>
                  have h' : chainDepth c + 1 = n + 1 := h
                  have hc : chainDepth c = n := by omega
                  calc causeE (.ext m (some (some c)) cl d s1 s2)
                      = causeE c := rfl
                    _ = causeIter n c := ih c hc
                    _ = causeIter (n + 1) (.ext m (some (some c)) cl d s1 s2) := rfl

/-- Before `chainDepth` iterations the loop guard still holds: the current
value has a present, non-nil cause. -/
theorem iter_continue : ∀ k e, k < chainDepth e →
    ∃ c, causeAccOf (causeIter k e) = some (some c) := by
  intro k
  induction k with
  | zero =>
      intro e h
      cases e with
      | ray a => exact absurd (show (0 : Nat) < 0 from h) (Nat.lt_irrefl 0)
      | ext m ca cl d s1 s2 =>
          cases ca with
          | none => exact absurd (show (0 : Nat) < 0 from h) (Nat.lt_irrefl 0)
          | some co =>
              cases co with
              | none => exact absurd (show (0 : Nat) < 0 from h) (Nat.lt_irrefl 0)
              | some c => exact ⟨c, rfl⟩
  | succ k ih =>
      intro e h
      cases e with
      | ray a => exact absurd (show k + 1 < 0 from h) (Nat.not_lt_zero _)
      | ext m ca cl d s1 s2 =>
          cases ca with
          | none => exact absurd (show k + 1 < 0 from h) (Nat.not_lt_zero _)
          | some co =>
              cases co with
              | none => exact absurd (show k + 1 < 0 from h) (Nat.not_lt_zero _)
              | some c =>
                  have h' : k + 1 < chainDepth c + 1 := h
                  exact ih c (by omega)

/-- After `chainDepth` iterations the loop guard fails. -/
theorem iter_stop : ∀ n e, chainDepth e = n →
    ∀ c, causeAccOf (causeIter n e) ≠ some (some c) := by
  intro n
  induction n with
  | zero =>
      intro e h c hc
      cases e with
      | ray a => exact Option.noConfusion hc
      | ext m ca cl d s1 s2 =>
          cases ca with
          | none => exact Option.noConfusion hc
          | some co =>
              cases co with
              | none =>
                  have : (none : Option GoErr) = some c := Option.some.inj hc
                  exact Option.noConfusion this
              | some c' =>
                  have h0 : chainDepth c' + 1 = 0 := h
                  exact (Nat.succ_ne_zero _ h0).elim
  | succ n ih =>
      intro e h c hc
      cases e with
      | ray a =>
          have h0 : (0 : Nat) = n + 1 := h
          exact (Nat.succ_ne_zero n h0.symm).elim
      | ext m ca cl d s1 s2 =>
          cases ca with
          | none =>
              have h0 : (0 : Nat) = n + 1 := h
              exact (Nat.succ_ne_zero n h0.symm).elim
          | some co =>
              cases co with
              | none =>
                  have h0 : (0 : Nat) = n + 1 := h
                  exact (Nat.succ_ne_zero n h0.symm).elim
              | some c' =>
                  have h' : chainDepth c' + 1 = n + 1 := h
                  exact ih c' (by omega) c hc

/-- C3: `cause` steps to the cause while one is present and non-nil; a nil
cause or an absent capability terminates with the current value; nil
input is returned unchanged; and the loop runs exactly `chainDepth` many
steps (the guard holds strictly before that point and fails at it). -/
theorem cause_resolution :
    (cause none = none) ∧
    (∀ e, causeAccOf e = none → cause (some e) = some e) ∧
    (∀ e, causeAccOf e = some none → cause (some e) = some e) ∧
    (∀ e c, causeAccOf e = some (some c) → cause (some e) = cause (some c)) ∧
    (∀ e, cause (some e) = some (causeIter (chainDepth e) e)) ∧
    (∀ e k, k < chainDepth e → ∃ c, causeAccOf (causeIter k e) = some (some c)) ∧
    (∀ e c, causeAccOf (causeIter (chainDepth e) e) ≠ some (some c)) := by
  refine ⟨rfl, ?_, ?_, ?_, ?_, ?_, ?_⟩
  · intro e h
    exact congrArg some (causeE_noStep e (fun c hc => by rw [h] at hc; exact Option.noConfusion hc))
  · intro e h
    refine congrArg some (causeE_noStep e (fun c hc => ?_))
    rw [h] at hc
    exact Option.noConfusion (Option.some.inj hc)
  · intro e c h
    cases e with
    | ray a => exact Option.noConfusion h
    | ext m ca cl d s1 s2 =>
        have : ca = some (some c) := h
        subst this
        rfl
  · intro e
    exact congrArg some (causeE_eq_iter (chainDepth e) e rfl)
  · exact fun e k h => iter_continue k e h
  · exact fun e c => iter_stop (chainDepth e) e rfl c

/-- Witness for C3: one unwrap step on a concrete two-element chain. -/
theorem cause_resolution_witness :
    cause (some (.ext "outer"
        (some (some (.ext "root" none none none none none)))
        none none none none)) =
      cause (some (.ext "root" none none none none none)) :=
  cause_resolution.2.2.2.1
    (.ext "outer" (some (some (.ext "root" none none none none none)))
      none none none none)
    (.ext "root" none none none none none) rfl

/-- C1: `FromErr` returns an already-normalized `Error` unchanged, and
composing `FromErr` with itself (re-injecting the produced `Error` struct
as a Go error value) returns the first result unchanged, for any raw
captures. -/
theorem FromErr_idempotent :
    (∀ raw e, FromErr raw (.ray e) = some e) ∧
    (∀ raw raw' err r, FromErr raw err = some r →
        FromErr raw' (.ray r) = some r) :=
  ⟨fun _ _ => rfl, fun _ _ _ _ _ => rfl⟩

/-- Witness for C1 at a concrete error carrying an empty Strategy A
capability. -/
theorem FromErr_idempotent_witness :
    FromErr []
      (.ray { InnerError := "", Data := .vnil, ClassName := "",
              Message := "boom", StackTrace := [] }) =
      some { InnerError := "", Data := .vnil, ClassName := "",
             Message := "boom", StackTrace := [] } :=
  FromErr_idempotent.2 [] []
    (.ext "boom" none none none (some []) none) _ rfl

/-- C2: with both stack capabilities present, `stacktrace` returns
Strategy A's result; whenever either capability is present the result
does not depend on the raw capture (so Strategy C never runs); with
neither present the raw-capture fallback runs. -/
theorem stacktrace_priority :
    (∀ raw msg ca cl d fs ls,
        stacktrace raw (.ext msg ca cl d (some fs) (some ls)) = parseA fs) ∧
    (∀ raw raw' err, stAcc1Of err ≠ none ∨ stAcc2Of err ≠ none →
        stacktrace raw err = stacktrace raw' err) ∧
    (∀ raw msg ca cl d,
        stacktrace raw (.ext msg ca cl d none none) =
          if 2 ≤ raw.length then some (raw.drop 2) else none) := by
  refine ⟨fun _ _ _ _ _ _ _ => rfl, ?_, fun _ _ _ _ _ => rfl⟩
  intro raw raw' err h
  cases err with
  | ray e => simp [stAcc1Of, stAcc2Of] at h
  | ext m ca cl d s1 s2 =>
      cases s1 with
      | some fs => rfl
      | none =>
          cases s2 with
          | some ls => rfl
          | none => simp [stAcc1Of, stAcc2Of] at h

/-- Witness for C2 at a concrete error with only the string-line
capability: the result is the same for two different raw captures. -/
theorem stacktrace_priority_witness :
    stacktrace [] (.ext "m" none none none none (some ["f.go:3"])) =
      stacktrace [⟨1, "", "a", ""⟩, ⟨2, "", "b", ""⟩, ⟨3, "", "c", ""⟩]
        (.ext "m" none none none none (some ["f.go:3"])) :=
  stacktrace_priority.2.1 [] [⟨1, "", "a", ""⟩, ⟨2, "", "b", ""⟩, ⟨3, "", "c", ""⟩]
    (.ext "m" none none none none (some ["f.go:3"]))
    (Or.inr (fun h => Option.noConfusion h))

/-- C8: a present stack capability whose sequence is empty yields an empty
trace for any raw capture — no fallback to Strategy C. -/
theorem stacktrace_empty_capability :
    ∀ raw msg ca cl d,
      (∀ ls, stacktrace raw (.ext msg ca cl d (some []) ls) = some []) ∧
      stacktrace raw (.ext msg ca cl d none (some [])) = some [] :=
  fun _ _ _ _ _ => ⟨fun _ => rfl, rfl⟩

/-- C9: the data probe is total, returns the capability's value when
present and nil otherwise, and looks only at the top-level value (its
result is independent of the cause accessor). -/
theorem data_total_toplevel :
    (∀ err v, dataAccOf err = some v → data err = v) ∧
    (∀ err, dataAccOf err = none → data err = .vnil) ∧
    (∀ m ca ca' cl d s1 s2,
        data (.ext m ca cl d s1 s2) = data (.ext m ca' cl d s1 s2)) := by
  refine ⟨fun err v h => ?_, fun err h => ?_, fun _ _ _ _ _ _ _ => rfl⟩
  · simp [data, h]
  · simp [data, h]

/-- Witness for C9 at a concrete error exposing a data capability. -/
theorem data_total_toplevel_witness :
    data (.ext "m" none none (some (.vstr "x")) none none) = .vstr "x" :=
  data_total_toplevel.1 (.ext "m" none none (some (.vstr "x")) none none)
    (.vstr "x") rfl

/-- C10: the `Error` struct's `Error()` method returns its `Message`
field, so even the non-short-circuit construction of `FromErr` applied to
a normalized error preserves the message. -/
theorem Error_method_eq_Message :
    (∀ e : Error, e.Error = e.Message) ∧
    (∀ raw (e : Error) r, buildErr raw (.ray e) = some r →
        r.Message = e.Message) := by
  refine ⟨fun e => rfl, fun raw e r h => ?_⟩
  unfold buildErr at h
  cases hst : stacktrace raw (.ray e) with
  | none => rw [hst] at h; cases h
  | some st => rw [hst] at h; cases h; rfl

/-- Witness for C10: the non-short-circuit build on a concrete normalized
error (with a two-frame raw capture) keeps the message. -/
theorem Error_method_eq_Message_witness :
    ({ InnerError := "", Data := .vnil, ClassName := "",
       Message := "boom", StackTrace := [] } : Error).Message = "boom" :=
  Error_method_eq_Message.2 [⟨1, "", "a", ""⟩, ⟨2, "", "b", ""⟩]
    { InnerError := "", Data := .vnil, ClassName := "",
      Message := "boom", StackTrace := [] }
    { InnerError := "", Data := .vnil, ClassName := "",
      Message := "boom", StackTrace := [] } rfl

end raygun
